import Mathlib

/-!
Shallow embedding of the TaskMaster backend task controller: the task
data model, the single-record operations (create, getById, update,
delete, status update) and the three listing operations, over an
explicit task store passed as a value. Mutating operations return the
operation result together with the store after the operation.
-/

namespace TaskMaster

/-- A stored task record, mirroring the Mongo document the controller
manipulates. Text fields, the due date and the status are optional
because the general update path writes the payload fields wholesale and
an absent payload field leaves no value; `assignedTo` and `createdBy`
are user ids; `createdAt` is the creation timestamp used as the listing
sort key. Timestamps are epoch milliseconds as integers. -/
structure Task where
  id : Nat
  title : Option String
  description : Option String
  dueDate : Option Int
  priority : Option String
  status : Option String
  assignedTo : Nat
  createdBy : Nat
  createdAt : Int
deriving DecidableEq, Repr

/-- The task store: the single Task collection, as a list of records. -/
abbrev Store := List Task

/-- Result of a task operation, abstracting the responses the controller
sends: success (200/201 with a payload), invalid input (400), not found
(404) and forbidden (403). -/
inductive TaskResult (α : Type) where
  | success : α → TaskResult α
  | invalidInput : TaskResult α
  | notFound : TaskResult α
  | forbidden : TaskResult α
deriving DecidableEq, Repr

/-- Milliseconds in one day, the granularity `setHours(0, 0, 0, 0)`
truncates to. -/
def msPerDay : Int := 86400000

/-- Calendar-day index of a timestamp: two timestamps have equal
`dayOf` exactly when `setHours(0, 0, 0, 0)` sends them to the same
midnight, and the order of the truncated timestamps is the order of
their `dayOf` values, so the source comparison of the two truncated
dates is the comparison of the two `dayOf` values. -/
def dayOf (t : Int) : Int := t / msPerDay

/-- `Task.findById`: the record with the given id, if any. -/
def findById (s : Store) (i : Nat) : Option Task :=
  s.find? (fun t => t.id == i)

/-- The authorization check shared by read, general update and status
update: `isCreator || isAssignee`. -/
def isParticipant (requester : Nat) (t : Task) : Bool :=
  t.createdBy == requester || t.assignedTo == requester

/-- JS truthiness of an optional text field: `!field` rejects both a
missing field and the empty string. -/
def presentStr (v : Option String) : Bool :=
  match v with
  | none => false
  | some s => !s.isEmpty

/-- The creation payload `req.body` of createTask. The due date is the
parsed timestamp of the supplied date; `none` models a missing (or
falsy, hence rejected) value. -/
structure CreateInput where
  title : Option String
  description : Option String
  dueDate : Option Int
  priority : Option String
  assignedTo : Option Nat
deriving Repr

/-- The required-fields truthiness check of createTask:
`!title || !description || !dueDate || !priority || !assignedTo`. -/
def CreateInput.complete (b : CreateInput) : Bool :=
  presentStr b.title && presentStr b.description && b.dueDate.isSome &&
    presentStr b.priority && b.assignedTo.isSome

/-- `createTask`: required-fields check, then the due-date-not-in-past
check on calendar days, then the insert. `now` is the current clock,
`requester` is `req.user._id` and `newId` is the id the store assigns
to the new record.
Modelled from the spec: the Task schema (`models/Task.js`, which is not
among the sources) defaults `status` to `pending` at creation and
stamps `createdAt` with the creation time, as the data-model section of
the specification describes. -/
def createTask (now : Int) (requester : Nat) (b : CreateInput) (newId : Nat)
    (s : Store) : TaskResult Task × Store :=
  if !b.complete then (.invalidInput, s)
  else
    match b.dueDate, b.assignedTo with
    | some due, some asg =>
      if dayOf due < dayOf now then (.invalidInput, s)
      else
        let t : Task :=
          { id := newId,
            title := b.title,
            description := b.description,
            dueDate := some due,
            priority := b.priority,
            status := some "pending",
            assignedTo := asg,
            createdBy := requester,
            createdAt := now }
        (.success t, t :: s)
    | _, _ => (.invalidInput, s)

/-- `getTaskById`: existence first, then the participant check. -/
def getTaskById (requester : Nat) (i : Nat) (s : Store) : TaskResult Task :=
  match findById s i with
  | none => .notFound
  | some t => if !(isParticipant requester t) then .forbidden else .success t

/-- The update payload `req.body` of updateTask, restricted to the five
fields the handler reads from it. -/
structure UpdateInput where
  title : Option String
  description : Option String
  dueDate : Option Int
  priority : Option String
  status : Option String
deriving Repr

/-- The patch `findByIdAndUpdate` applies in updateTask: the update
object carries exactly the five keys `title, description, dueDate,
priority, status` taken from the body, so each of those five fields is
replaced by the payload value (a field absent from the payload replaces
the stored value with no value); `id`, `assignedTo`, `createdBy` and
`createdAt` are not in the patch and keep their stored values. -/
def applyUpdate (b : UpdateInput) (t : Task) : Task :=
  { t with
    title := b.title,
    description := b.description,
    dueDate := b.dueDate,
    priority := b.priority,
    status := b.status }

/-- `updateTask`: existence first, then the participant check, then the
due-date check only when the payload carries a due date, then the
wholesale five-field update of the record with the given id. -/
def updateTask (now : Int) (requester : Nat) (i : Nat) (b : UpdateInput)
    (s : Store) : TaskResult Task × Store :=
  match findById s i with
  | none => (.notFound, s)
  | some t =>
    if !(isParticipant requester t) then (.forbidden, s)
    else
      match b.dueDate with
      | some due =>
        if dayOf due < dayOf now then (.invalidInput, s)
        else (.success (applyUpdate b t),
              s.map (fun x => if x.id == i then applyUpdate b x else x))
      | none =>
        (.success (applyUpdate b t),
         s.map (fun x => if x.id == i then applyUpdate b x else x))

/-- `deleteTask`: existence first, then the creator-only check, then
`findByIdAndDelete` removes the record with the given id. -/
def deleteTask (requester : Nat) (i : Nat) (s : Store) :
    TaskResult Unit × Store :=
  match findById s i with
  | none => (.notFound, s)
  | some t =>
    if !(t.createdBy == requester) then (.forbidden, s)
    else (.success (), s.filter (fun x => !(x.id == i)))

/-- The status-value check of updateTaskStatus: the request is rejected
unless the status is supplied and is exactly one of `pending` or
`completed` (the empty string is falsy and also not in the list, so
both sides of the source check agree with this predicate). -/
def validStatus (st : Option String) : Bool :=
  match st with
  | none => false
  | some v => v == "pending" || v == "completed"

/-- `updateTaskStatus`: the status-value check runs first, then
existence, then the participant check, then `task.status = status;
task.save()` writes only the status field of the record. -/
def updateTaskStatus (requester : Nat) (i : Nat) (st : Option String)
    (s : Store) : TaskResult Task × Store :=
  if !(validStatus st) then (.invalidInput, s)
  else
    match findById s i with
    | none => (.notFound, s)
    | some t =>
      if !(isParticipant requester t) then (.forbidden, s)
      else
        (.success { t with status := st },
         s.map (fun x => if x.id == i then { x with status := st } else x))

/-- `parseInt(q) || d`: `none` models a missing or unparseable value
(`parseInt` yields NaN, which is falsy); a parsed 0 is falsy too and
falls back to the default; every other parsed integer, negative values
included, is kept verbatim. -/
def parseOrDefault (v : Option Int) (d : Int) : Int :=
  match v with
  | none => d
  | some n => if n == 0 then d else n

/-- Filter of getTasks: creator OR assignee (the `$or` query). -/
def matchesAll (u : Nat) (t : Task) : Bool :=
  t.createdBy == u || t.assignedTo == u

/-- Filter of getAssignedTasks: assignee AND NOT creator (the `$ne`
clause on createdBy). -/
def matchesAssigned (u : Nat) (t : Task) : Bool :=
  t.assignedTo == u && !(t.createdBy == u)

/-- Filter of getCreatedTasks: creator. -/
def matchesCreated (u : Nat) (t : Task) : Bool :=
  t.createdBy == u

/-- `.sort({ createdAt: -1 })`: newest first. -/
def sortByCreatedAtDesc (l : List Task) : List Task :=
  l.mergeSort (fun a b => decide (b.createdAt ≤ a.createdAt))

/-- A listing response body: the page records plus the pagination
metadata `count`, `total`, `page` and `pages`. -/
structure ListResult where
  data : List Task
  count : Nat
  total : Nat
  page : Int
  pages : Int
deriving DecidableEq, Repr

/-- Outcome of a listing request: either the shaped 200 response, or a
store failure — the store rejects a query whose skip is negative, and
the handler surfaces that error as a generic 500 failure. -/
inductive ListOutcome where
  | ok : ListResult → ListOutcome
  | storeFailure : ListOutcome
deriving DecidableEq, Repr

/-- The count field of a successful listing outcome; 0 on a store
failure (used only to sum counts over pages that all succeed). -/
def ListOutcome.countOf : ListOutcome → Nat
  | .ok r => r.count
  | .storeFailure => 0

/-- `Math.ceil(total / limit)` on integer inputs with a nonzero limit
(parseOrDefault never yields 0): ceiling of the exact quotient, which
for a positive divisor is the negated floor division of the negation
and for a negative divisor (the quotient is then nonpositive) is the
floor division itself. -/
def jsCeil (total limit : Int) : Int :=
  if 0 < limit then -((-total) / limit) else total / limit

/-- The listing pipeline shared verbatim by getTasks, getAssignedTasks
and getCreatedTasks: parse page and limit with defaults 1 and 3 and
compute `skip = (page - 1) * limit`. A negative skip is rejected by the
store and the handler surfaces the error as a generic failure
(storeFailure). Otherwise the pipeline counts the matching records and
fetches them sorted by createdAt descending with skip and limit
applied: drop skip then take the limit magnitude — the store treats a
negative limit as a single-batch fetch of at most the limit magnitude
many records (no theorem below relies on a negative limit) — and
shapes the response. -/
def listTasks (pred : Task → Bool) (qpage qlimit : Option Int)
    (s : Store) : ListOutcome :=
  let page := parseOrDefault qpage 1
  let limit := parseOrDefault qlimit 3
  let skip := (page - 1) * limit
  if skip < 0 then .storeFailure
  else
    let matching := s.filter pred
    let total := matching.length
    let data :=
      ((sortByCreatedAtDesc matching).drop skip.toNat).take limit.natAbs
    .ok { data := data,
          count := data.length,
          total := total,
          page := page,
          pages := jsCeil (total : Int) limit }

/-- `getTasks`: tasks where the user is creator or assignee. -/
def getTasks (u : Nat) (qpage qlimit : Option Int) (s : Store) :
    ListOutcome :=
  listTasks (matchesAll u) qpage qlimit s

/-- `getAssignedTasks`: tasks assigned to the user but not created by
them. -/
def getAssignedTasks (u : Nat) (qpage qlimit : Option Int) (s : Store) :
    ListOutcome :=
  listTasks (matchesAssigned u) qpage qlimit s

/-- `getCreatedTasks`: tasks created by the user. -/
def getCreatedTasks (u : Nat) (qpage qlimit : Option Int) (s : Store) :
    ListOutcome :=
  listTasks (matchesCreated u) qpage qlimit s

/-- A sample task for the concrete witnesses: created by user 3 and
assigned to user 2. -/
def sampleTask : Task :=
  { id := 1,
    title := some "Fix bug",
    description := some "repro steps",
    dueDate := some 0,
    priority := some "high",
    status := some "pending",
    assignedTo := 2,
    createdBy := 3,
    createdAt := 5 }

/-- An update payload carrying no fields, for the concrete witnesses. -/
def emptyUpdate : UpdateInput :=
  { title := none,
    description := none,
    dueDate := none,
    priority := none,
    status := none }

/-- C10: in updateTaskStatus the status-value check runs before the
existence lookup: whenever the supplied status is missing or not
exactly one of pending or completed, the result is InvalidInput and the
store is returned unchanged, for every store, in particular stores in
which the given id does not exist. -/
theorem updateTaskStatus_invalid_status_first (r i : Nat)
    (st : Option String) (s : Store) (h : validStatus st = false) :
    updateTaskStatus r i st s = (.invalidInput, s) := by
  simp [updateTaskStatus, h]

/-- Witness for C10: an invalid status on an empty store (so the id
does not exist) still yields InvalidInput, not NotFound. -/
theorem updateTaskStatus_invalid_status_first_witness :
    updateTaskStatus 7 99 (some "done") [] = (.invalidInput, []) :=
  updateTaskStatus_invalid_status_first 7 99 (some "done") [] (by decide)

/-- C9: for every creation payload that passes the required-fields
check and whose due date is not on an earlier calendar day than now,
createTask succeeds and the created task has createdBy equal to the
requester and status pending. -/
theorem createTask_createdBy_and_pending (now : Int) (r newId : Nat)
    (b : CreateInput) (s : Store) (hb : b.complete = true)
    (hd : ∀ d, b.dueDate = some d → dayOf now ≤ dayOf d) :
    ∃ t, (createTask now r b newId s).1 = .success t ∧
      t.createdBy = r ∧ t.status = some "pending" := by
  rcases hdue : b.dueDate with _ | due
  · rw [CreateInput.complete, hdue] at hb; simp at hb
  rcases hasg : b.assignedTo with _ | asg
  · rw [CreateInput.complete, hasg] at hb; simp at hb
  have hnot : ¬ (dayOf due < dayOf now) := not_lt.mpr (hd due hdue)
  exact ⟨⟨newId, b.title, b.description, some due, b.priority,
    some "pending", asg, r, now⟩, by simp [createTask, hb, hdue, hasg, hnot],
    rfl, rfl⟩

/-- A complete creation payload for the concrete witnesses. -/
def sampleCreateInput : CreateInput :=
  { title := some "Fix bug",
    description := some "repro steps",
    dueDate := some 0,
    priority := some "high",
    assignedTo := some 2 }

/-- Witness for C9 at a concrete complete payload. -/
theorem createTask_createdBy_and_pending_witness :
    ∃ t, (createTask 0 3 sampleCreateInput 1 []).1 = .success t ∧
      t.createdBy = 3 ∧ t.status = some "pending" :=
  createTask_createdBy_and_pending 0 3 1 sampleCreateInput [] (by decide)
    (by intro d hd; simp [sampleCreateInput] at hd; simp [hd])

/-- C8: a successful status-only update changes exactly the status
field: the returned task agrees with the prior stored task on every
other field. -/
theorem updateTaskStatus_frame (r i : Nat) (v : String) (s : Store)
    (t : Task) (hv : validStatus (some v) = true)
    (ht : findById s i = some t) (hp : isParticipant r t = true) :
    ∃ t2, (updateTaskStatus r i (some v) s).1 = .success t2 ∧
      t2.status = some v ∧ t2.id = t.id ∧ t2.title = t.title ∧
      t2.description = t.description ∧ t2.dueDate = t.dueDate ∧
      t2.priority = t.priority ∧ t2.assignedTo = t.assignedTo ∧
      t2.createdBy = t.createdBy ∧ t2.createdAt = t.createdAt := by
  exact ⟨{ t with status := some v },
    by simp [updateTaskStatus, hv, ht, hp],
    rfl, rfl, rfl, rfl, rfl, rfl, rfl, rfl, rfl⟩

/-- Witness for C8: the assignee flips the sample task to completed and
every other field keeps its value. -/
theorem updateTaskStatus_frame_witness :
    ∃ t2, (updateTaskStatus 2 1 (some "completed") [sampleTask]).1 =
        .success t2 ∧
      t2.status = some "completed" ∧ t2.id = sampleTask.id ∧
      t2.title = sampleTask.title ∧
      t2.description = sampleTask.description ∧
      t2.dueDate = sampleTask.dueDate ∧
      t2.priority = sampleTask.priority ∧
      t2.assignedTo = sampleTask.assignedTo ∧
      t2.createdBy = sampleTask.createdBy ∧
      t2.createdAt = sampleTask.createdAt :=
  updateTaskStatus_frame 2 1 "completed" [sampleTask] sampleTask
    (by decide) (by decide) (by decide)

/-- C7: an authorized general update replaces title, description,
dueDate, priority and status wholesale with the payload values (a field
absent from the payload overwrites the stored value with no value),
while createdBy and assignedTo keep their stored values, both in the
returned task and across the whole store. -/
theorem updateTask_wholesale (now : Int) (r i : Nat) (b : UpdateInput)
    (s : Store) (t : Task) (ht : findById s i = some t)
    (hp : isParticipant r t = true)
    (hd : ∀ d, b.dueDate = some d → dayOf now ≤ dayOf d) :
    (∃ t2, (updateTask now r i b s).1 = .success t2 ∧
      t2.title = b.title ∧ t2.description = b.description ∧
      t2.dueDate = b.dueDate ∧ t2.priority = b.priority ∧
      t2.status = b.status ∧ t2.createdBy = t.createdBy ∧
      t2.assignedTo = t.assignedTo) ∧
    (updateTask now r i b s).2.map (fun x => (x.createdBy, x.assignedTo)) =
      s.map (fun x => (x.createdBy, x.assignedTo)) := by
  have hres : updateTask now r i b s = (.success (applyUpdate b t),
      s.map (fun x => if x.id == i then applyUpdate b x else x)) := by
    rcases hbd : b.dueDate with _ | due
    · simp [updateTask, ht, hp, hbd]
    · have hnot : ¬ (dayOf due < dayOf now) := not_lt.mpr (hd due hbd)
      simp [updateTask, ht, hp, hbd, hnot]
  rw [hres]
  refine ⟨⟨applyUpdate b t, rfl, rfl, rfl, rfl, rfl, rfl, rfl, rfl⟩, ?_⟩
  rw [List.map_map]
  have hfun : ((fun x : Task => (x.createdBy, x.assignedTo)) ∘
      (fun x => if x.id == i then applyUpdate b x else x)) =
      (fun x : Task => (x.createdBy, x.assignedTo)) := by
    funext x
    simp only [Function.comp_apply]
    split <;> simp [applyUpdate]
  rw [hfun]

/-- Witness for C7: the creator updates the sample task with an empty
payload; all five payload fields are overwritten (with no value) and
createdBy and assignedTo are untouched. -/
theorem updateTask_wholesale_witness :
    (∃ t2, (updateTask 0 3 1 emptyUpdate [sampleTask]).1 = .success t2 ∧
      t2.title = emptyUpdate.title ∧
      t2.description = emptyUpdate.description ∧
      t2.dueDate = emptyUpdate.dueDate ∧
      t2.priority = emptyUpdate.priority ∧
      t2.status = emptyUpdate.status ∧
      t2.createdBy = sampleTask.createdBy ∧
      t2.assignedTo = sampleTask.assignedTo) ∧
    (updateTask 0 3 1 emptyUpdate [sampleTask]).2.map
        (fun x => (x.createdBy, x.assignedTo)) =
      [sampleTask].map (fun x => (x.createdBy, x.assignedTo)) :=
  updateTask_wholesale 0 3 1 emptyUpdate [sampleTask] sampleTask
    (by decide) (by decide) (by intro d hd; cases hd)

/-- C2: on an existing task, deleteTask is creator-only: an assignee
who is not the creator is forbidden and the store is unchanged, while
the creator succeeds and a subsequent getTaskById on the same id finds
nothing, whoever asks. -/
theorem deleteTask_creator_only (r i : Nat) (s : Store) (t : Task)
    (ht : findById s i = some t) :
    (t.assignedTo = r → t.createdBy ≠ r →
      deleteTask r i s = (.forbidden, s)) ∧
    (t.createdBy = r → (deleteTask r i s).1 = .success () ∧
      ∀ r2, getTaskById r2 i (deleteTask r i s).2 = .notFound) := by
  constructor
  · intro _ hne
    have hcb : (t.createdBy == r) = false := by simp [hne]
    simp [deleteTask, ht, hcb]
  · intro hc
    have hcb : (t.createdBy == r) = true := by simp [hc]
    have hdel : deleteTask r i s =
        (.success (), s.filter (fun x => !(x.id == i))) := by
      simp [deleteTask, ht, hcb]
    rw [hdel]
    refine ⟨rfl, fun r2 => ?_⟩
    have hnone : findById (s.filter (fun x => !(x.id == i))) i = none := by
      rw [findById, List.find?_eq_none]
      intro x hx
      have hmem := (List.mem_filter.mp hx).2
      simp only [Bool.not_eq_true'] at hmem
      simp [hmem]
    simp [getTaskById, hnone]

/-- Witness for C2: on the sample task, the assignee (user 2) is
forbidden and the creator (user 3) deletes it, after which every lookup
of the id reports NotFound. -/
theorem deleteTask_creator_only_witness :
    (sampleTask.assignedTo = 2 → sampleTask.createdBy ≠ 2 →
      deleteTask 2 1 [sampleTask] = (.forbidden, [sampleTask])) ∧
    (sampleTask.createdBy = 3 → (deleteTask 3 1 [sampleTask]).1 = .success () ∧
      ∀ r2, getTaskById r2 1 (deleteTask 3 1 [sampleTask]).2 = .notFound) :=
  ⟨(deleteTask_creator_only 2 1 [sampleTask] sampleTask (by decide)).1,
   (deleteTask_creator_only 3 1 [sampleTask] sampleTask (by decide)).2⟩

/-- C5: the due-date check compares calendar days only and rejects with
InvalidInput exactly when the candidate day is strictly earlier than
the current day; a due date on the current day is accepted and one on
the previous day is rejected, both at creation and at an authorized
update; at an update the check only applies when the payload carries a
due date (without one the update goes through with no date check). -/
theorem dueDate_calendar_rule (now due : Int) (r newId i : Nat)
    (b : CreateInput) (u : UpdateInput) (s : Store) (t : Task)
    (hb : b.complete = true) (hbd : b.dueDate = some due)
    (hud : u.dueDate = some due)
    (ht : findById s i = some t) (hp : isParticipant r t = true) :
    ((createTask now r b newId s).1 = .invalidInput ↔
      dayOf due < dayOf now) ∧
    ((updateTask now r i u s).1 = .invalidInput ↔
      dayOf due < dayOf now) ∧
    (dayOf due = dayOf now →
      (∃ t2, (createTask now r b newId s).1 = .success t2) ∧
      (∃ t2, (updateTask now r i u s).1 = .success t2)) ∧
    (dayOf due + 1 = dayOf now →
      (createTask now r b newId s).1 = .invalidInput ∧
      (updateTask now r i u s).1 = .invalidInput) ∧
    (∀ u2 : UpdateInput, u2.dueDate = none →
      (updateTask now r i u2 s).1 = .success (applyUpdate u2 t)) := by
  rcases hasg : b.assignedTo with _ | asg
  · rw [CreateInput.complete, hasg] at hb; simp at hb
  have hciff : (createTask now r b newId s).1 = .invalidInput ↔
      dayOf due < dayOf now := by
    by_cases h : dayOf due < dayOf now
    · simp [createTask, hb, hbd, hasg, h]
    · simp [createTask, hb, hbd, hasg, h]
  have huiff : (updateTask now r i u s).1 = .invalidInput ↔
      dayOf due < dayOf now := by
    by_cases h : dayOf due < dayOf now
    · simp [updateTask, ht, hp, hud, h]
    · simp [updateTask, ht, hp, hud, h]
  refine ⟨hciff, huiff, ?_, ?_, ?_⟩
  · intro heq
    have h : ¬ (dayOf due < dayOf now) := by omega
    exact ⟨⟨⟨newId, b.title, b.description, some due, b.priority,
      some "pending", asg, r, now⟩,
      by simp [createTask, hb, hbd, hasg, h]⟩,
      ⟨applyUpdate u t, by simp [updateTask, ht, hp, hud, h]⟩⟩
  · intro heq
    have h : dayOf due < dayOf now := by omega
    exact ⟨hciff.mpr h, huiff.mpr h⟩
  · intro u2 h2
    simp [updateTask, ht, hp, h2]

/-- Witness for C5: with now at one day past the epoch, a due date on
the same calendar day is accepted and the epoch day (one calendar day
earlier) is rejected, at creation and at an update by the creator. -/
theorem dueDate_calendar_rule_witness :
    ((createTask 86400000 3 { sampleCreateInput with
        dueDate := some 86400001 } 1 []).1 = .invalidInput ↔
      dayOf 86400001 < dayOf 86400000) ∧
    ((updateTask 86400000 3 1 { emptyUpdate with
        dueDate := some 86400001 } [sampleTask]).1 = .invalidInput ↔
      dayOf 86400001 < dayOf 86400000) ∧
    (dayOf 86400001 = dayOf 86400000 →
      (∃ t2, (createTask 86400000 3 { sampleCreateInput with
        dueDate := some 86400001 } 1 []).1 = .success t2) ∧
      (∃ t2, (updateTask 86400000 3 1 { emptyUpdate with
        dueDate := some 86400001 } [sampleTask]).1 = .success t2)) ∧
    (dayOf 86400001 + 1 = dayOf 86400000 →
      (createTask 86400000 3 { sampleCreateInput with
        dueDate := some 86400001 } 1 []).1 = .invalidInput ∧
      (updateTask 86400000 3 1 { emptyUpdate with
        dueDate := some 86400001 } [sampleTask]).1 = .invalidInput) ∧
    (∀ u2 : UpdateInput, u2.dueDate = none →
      (updateTask 86400000 3 1 u2 [sampleTask]).1 =
        .success (applyUpdate u2 sampleTask)) :=
  dueDate_calendar_rule 86400000 86400001 3 1 1
    { sampleCreateInput with dueDate := some 86400001 }
    { emptyUpdate with dueDate := some 86400001 } [sampleTask] sampleTask
    (by decide) (by decide) (by decide) (by decide) (by decide)

/-- C1 counterexample: the claim fails as stated on two concrete
inputs. First, updateTaskStatus with a status value outside the allowed
set on an empty store (the id does not exist) answers InvalidInput, not
NotFound. Second, on an existing task the creator (a participant)
supplies a due date on an earlier calendar day and updateTask answers
InvalidInput rather than succeeding. -/
theorem single_record_ops_counterexample :
    (findById ([] : Store) 99 = none ∧
      (updateTaskStatus 7 99 (some "done") []).1 = .invalidInput ∧
      (updateTaskStatus 7 99 (some "done") []).1 ≠ .notFound) ∧
    (findById [sampleTask] 1 = some sampleTask ∧
      isParticipant 3 sampleTask = true ∧
      (updateTask 86400000 3 1 { emptyUpdate with dueDate := some 0 }
        [sampleTask]).1 = .invalidInput) := by
  decide

/-- C1 amended: for getTaskById, updateTask and updateTaskStatus, on
payloads that pass the operation's own input validation (any supplied
due date not on an earlier calendar day than now; a status value among
pending and completed), a missing id yields NotFound regardless of the
requester, and on an existing task the operation succeeds when the
requester is the creator or the assignee and yields Forbidden
otherwise, with existence checked before authorization. -/
theorem single_record_ops_auth (now : Int) (r i : Nat) (s : Store)
    (b : UpdateInput) (st : Option String)
    (hb : ∀ d, b.dueDate = some d → dayOf now ≤ dayOf d)
    (hst : validStatus st = true) :
    (findById s i = none →
      getTaskById r i s = .notFound ∧
      (updateTask now r i b s).1 = .notFound ∧
      (updateTaskStatus r i st s).1 = .notFound) ∧
    (∀ t, findById s i = some t → isParticipant r t = true →
      getTaskById r i s = .success t ∧
      (updateTask now r i b s).1 = .success (applyUpdate b t) ∧
      (updateTaskStatus r i st s).1 = .success { t with status := st }) ∧
    (∀ t, findById s i = some t → isParticipant r t = false →
      getTaskById r i s = .forbidden ∧
      (updateTask now r i b s).1 = .forbidden ∧
      (updateTaskStatus r i st s).1 = .forbidden) := by
  refine ⟨?_, ?_, ?_⟩
  · intro hn
    exact ⟨by simp [getTaskById, hn], by simp [updateTask, hn],
      by simp [updateTaskStatus, hst, hn]⟩
  · intro t ht hp
    refine ⟨by simp [getTaskById, ht, hp], ?_,
      by simp [updateTaskStatus, hst, ht, hp]⟩
    rcases hbd : b.dueDate with _ | due
    · simp [updateTask, ht, hp, hbd]
    · have hnot : ¬ (dayOf due < dayOf now) := not_lt.mpr (hb due hbd)
      simp [updateTask, ht, hp, hbd, hnot]
  · intro t ht hp
    exact ⟨by simp [getTaskById, ht, hp], by simp [updateTask, ht, hp],
      by simp [updateTaskStatus, hst, ht, hp]⟩

/-- Witness for C1 amended: a valid payload on an absent id yields
NotFound for all three operations, and the assignee reads the sample
task. -/
theorem single_record_ops_auth_witness :
    (getTaskById 2 99 [sampleTask] = .notFound ∧
      (updateTask 0 2 99 emptyUpdate [sampleTask]).1 = .notFound ∧
      (updateTaskStatus 2 99 (some "completed") [sampleTask]).1 =
        .notFound) ∧
    getTaskById 2 1 [sampleTask] = .success sampleTask :=
  ⟨(single_record_ops_auth 0 2 99 [sampleTask] emptyUpdate
      (some "completed") (by intro d hd; cases hd) (by decide)).1
      (by decide),
   ((single_record_ops_auth 0 2 1 [sampleTask] emptyUpdate
      (some "completed") (by intro d hd; cases hd) (by decide)).2.1
      sampleTask (by decide) (by decide)).1⟩

/-- The sorted listing is pairwise nonincreasing on createdAt. -/
theorem sortByCreatedAtDesc_pairwise (l : List Task) :
    List.Pairwise (fun a b => b.createdAt ≤ a.createdAt)
      (sortByCreatedAtDesc l) := by
  have h := @List.sorted_mergeSort Task
    (fun a b => decide (b.createdAt ≤ a.createdAt))
    (by intro a b c h1 h2; simp at h1 h2 ⊢; omega)
    (by intro a b; rcases Int.le_total a.createdAt b.createdAt with h | h <;>
      simp [h])
    l
  exact List.Pairwise.imp (fun hab => of_decide_eq_true hab) h

/-- The sorted listing is a permutation of the filtered records. -/
theorem sortByCreatedAtDesc_perm (l : List Task) :
    (sortByCreatedAtDesc l).Perm l :=
  List.mergeSort_perm l _

/-- An element of a list lies in one of the consecutive length-L slices
of the list, and conversely each slice only holds elements of the
list. -/
theorem mem_iff_mem_slice {α : Type} (l : List α) (L : Nat) (hL : 1 ≤ L)
    (x : α) : x ∈ l ↔ ∃ k : Nat, x ∈ (l.drop (k * L)).take L := by
  constructor
  · intro hx
    obtain ⟨i, hi⟩ := List.mem_iff_getElem?.mp hx
    refine ⟨i / L, List.mem_iff_getElem?.mpr ⟨i % L, ?_⟩⟩
    rw [List.getElem?_take, if_pos (Nat.mod_lt _ (by omega)),
      List.getElem?_drop]
    have hidx : i / L * L + i % L = i := by
      have hmod := Nat.div_add_mod i L
      have hcomm : i / L * L = L * (i / L) := Nat.mul_comm _ _
      omega
    rw [hidx]
    exact hi
  · rintro ⟨k, hk⟩
    exact List.mem_of_mem_drop (List.mem_of_mem_take hk)

/-- Evaluation of the listing pipeline at page k+1 and a positive
limit L. -/
theorem listTasks_eval (pred : Task → Bool) (k L : Nat) (hL : 1 ≤ L)
    (s : Store) :
    listTasks pred (some ((k : Int) + 1)) (some (L : Int)) s =
      .ok { data := ((sortByCreatedAtDesc (s.filter pred)).drop (k * L)).take L,
            count :=
              (((sortByCreatedAtDesc (s.filter pred)).drop
                (k * L)).take L).length,
            total := (s.filter pred).length,
            page := (k : Int) + 1,
            pages := jsCeil ((s.filter pred).length : Int) (L : Int) } := by
  have hk : (((k : Int) + 1) == 0) = false := by
    simp only [beq_eq_false_iff_ne, ne_eq]
    omega
  have hLz : (((L : Nat) : Int) == 0) = false := by
    simp only [beq_eq_false_iff_ne, ne_eq]
    omega
  have hskip : (((k : Int) + 1 - 1) * (L : Int)).toNat = k * L := by
    have h1 : ((k : Int) + 1 - 1) * (L : Int) = ((k * L : Nat) : Int) := by
      push_cast
      ring
    rw [h1, Int.toNat_natCast]
  have hAbs : ((L : Nat) : Int).natAbs = L := Int.natAbs_ofNat L
  have hskip2 : ((k : Int) * (L : Int)).toNat = k * L := by
    have h1 : (k : Int) * (L : Int) = ((k * L : Nat) : Int) := by
      push_cast
      ring
    rw [h1, Int.toNat_natCast]
  have hge : (0 : Int) ≤ (k : Int) * (L : Int) :=
    mul_nonneg (Int.natCast_nonneg k) (Int.natCast_nonneg L)
  have hnegA : ¬ ((((k : Int) + 1 - 1) * (L : Int)) < 0) := by
    have h1 : ((k : Int) + 1 - 1) * (L : Int) = (k : Int) * (L : Int) := by
      ring
    omega
  have hnegB : ¬ (((k : Int) * (L : Int)) < 0) := by omega
  simp [listTasks, parseOrDefault, hk, hLz, hskip, hskip2, hAbs, hnegA,
    hnegB]

/-- Each element of the store appears on some page of the listing
exactly when it satisfies the filter. -/
theorem mem_listing_iff (pred : Task → Bool) (L : Nat) (hL : 1 ≤ L)
    (s : Store) (t : Task) (ht : t ∈ s) :
    (∃ k : Nat, ∃ r, listTasks pred (some ((k : Int) + 1))
      (some (L : Int)) s = .ok r ∧ t ∈ r.data) ↔ pred t = true := by
  constructor
  · rintro ⟨k, r, hr, hk⟩
    rw [listTasks_eval pred k L hL s] at hr
    injection hr with hr2
    rw [← hr2] at hk
    have h1 : t ∈ sortByCreatedAtDesc (s.filter pred) :=
      List.mem_of_mem_drop (List.mem_of_mem_take hk)
    have h2 : t ∈ s.filter pred :=
      (sortByCreatedAtDesc_perm _).mem_iff.mp h1
    exact (List.mem_filter.mp h2).2
  · intro hp
    have h2 : t ∈ s.filter pred := List.mem_filter.mpr ⟨ht, hp⟩
    have h1 : t ∈ sortByCreatedAtDesc (s.filter pred) :=
      (sortByCreatedAtDesc_perm _).mem_iff.mpr h2
    obtain ⟨k, hk⟩ := (mem_iff_mem_slice _ L hL t).mp h1
    exact ⟨k, _, listTasks_eval pred k L hL s, hk⟩

/-- The slice lengths over any number of pages sum to the smaller of
the list length and the covered range. -/
theorem sum_slice_lengths {α : Type} (l : List α) (L P : Nat) :
    (∑ k ∈ Finset.range P, ((l.drop (k * L)).take L).length) =
      min l.length (P * L) := by
  induction P with
  | zero => simp
  | succ P ih =>
    rw [Finset.sum_range_succ, ih, List.length_take, List.length_drop,
      Nat.succ_mul]
    omega

/-- The page counts over all the pages the listing reports sum to the
number of matching records. -/
theorem sum_listing_counts (pred : Task → Bool) (L : Nat) (hL : 1 ≤ L)
    (s : Store) :
    (∑ k ∈ Finset.range (((s.filter pred).length + L - 1) / L),
      (listTasks pred (some ((k : Int) + 1)) (some (L : Int)) s).countOf) =
      (s.filter pred).length := by
  have hrw : ∀ k ∈ Finset.range (((s.filter pred).length + L - 1) / L),
      (listTasks pred (some ((k : Int) + 1)) (some (L : Int)) s).countOf =
      (((sortByCreatedAtDesc (s.filter pred)).drop (k * L)).take L).length := by
    intro k _
    rw [listTasks_eval pred k L hL s]
    rfl
  rw [Finset.sum_congr rfl hrw, sum_slice_lengths]
  have hlen : (sortByCreatedAtDesc (s.filter pred)).length =
      (s.filter pred).length := (sortByCreatedAtDesc_perm _).length_eq
  rw [hlen]
  have hQ := Nat.div_add_mod ((s.filter pred).length + L - 1) L
  have hR : ((s.filter pred).length + L - 1) % L < L :=
    Nat.mod_lt _ (by omega)
  have hcomm : ((s.filter pred).length + L - 1) / L * L =
      L * (((s.filter pred).length + L - 1) / L) := Nat.mul_comm _ _
  omega

/-- For a positive limit, the ceiling the listing reports is the
integer ceiling division of the total by the limit. -/
theorem jsCeil_eq_ceil (N L : Nat) (hL : 1 ≤ L) :
    jsCeil (N : Int) (L : Int) = (((N + L - 1) / L : Nat) : Int) := by
  have hL0 : (0 : Int) < (L : Int) := by exact_mod_cast hL
  have hQ := Nat.div_add_mod (N + L - 1) L
  have hR : (N + L - 1) % L < L := Nat.mod_lt _ (by omega)
  have hlb : N ≤ L * ((N + L - 1) / L) := by omega
  have hub2 : L * ((N + L - 1) / L) + 1 ≤ N + L := by omega
  have hlbz : (N : Int) ≤ (L : Int) * (((N + L - 1) / L : Nat) : Int) := by
    exact_mod_cast hlb
  have hubz : (L : Int) * (((N + L - 1) / L : Nat) : Int) + 1 ≤
      (N : Int) + (L : Int) := by exact_mod_cast hub2
  have key : (-(N : Int)) / (L : Int) = -(((N + L - 1) / L : Nat) : Int) :=
    ((@Int.ediv_emod_unique (-(N : Int)) (L : Int)
        ((L : Int) * (((N + L - 1) / L : Nat) : Int) - N)
        (-(((N + L - 1) / L : Nat) : Int)) hL0).mpr
      ⟨by ring, by omega, by omega⟩).1
  rw [jsCeil, if_pos hL0, key, neg_neg]

/-- The full pagination contract of the listing pipeline at page k+1
and positive limit L: the page records are sorted by createdAt
descending, count is the number of records in the page, total counts
the matching records, page echoes the request, pages is the ceiling of
total over the limit, and the counts over all pages sum to total. -/
theorem listTasks_pagination (pred : Task → Bool) (k L : Nat) (hL : 1 ≤ L)
    (s : Store) :
    ∃ r, listTasks pred (some ((k : Int) + 1)) (some (L : Int)) s = .ok r ∧
      List.Pairwise (fun a b => b.createdAt ≤ a.createdAt) r.data ∧
      r.count = r.data.length ∧
      r.total = (s.filter pred).length ∧
      r.page = (k : Int) + 1 ∧
      r.pages = ((((s.filter pred).length + L - 1) / L : Nat) : Int) ∧
      (∑ j ∈ Finset.range (((s.filter pred).length + L - 1) / L),
        (listTasks pred (some ((j : Int) + 1)) (some (L : Int)) s).countOf) =
        (s.filter pred).length := by
  refine ⟨_, listTasks_eval pred k L hL s, ?_, rfl, rfl, rfl,
    jsCeil_eq_ceil _ L hL, sum_listing_counts pred L hL s⟩
  exact List.Pairwise.sublist
    ((List.take_sublist _ _).trans (List.drop_sublist _ _))
    (sortByCreatedAtDesc_pairwise _)

/-- A successful listing response always echoes the parsed page. -/
theorem listTasks_page_parsed (pred : Task → Bool) (qp ql : Option Int)
    (s : Store) (r : ListResult)
    (h : listTasks pred qp ql s = .ok r) :
    r.page = parseOrDefault qp 1 := by
  simp only [listTasks] at h
  split at h
  · exact absurd h (by simp)
  · injection h with h2
    rw [← h2]

/-- A request whose page parses to the default 1 has skip 0, so it
succeeds whatever the limit parses to, and the response takes the
limit magnitude many sorted records from the front. -/
theorem listTasks_none_page (pred : Task → Bool) (ql : Option Int)
    (s : Store) :
    listTasks pred none ql s =
      .ok { data := (sortByCreatedAtDesc (s.filter pred)).take
              (parseOrDefault ql 3).natAbs,
            count := ((sortByCreatedAtDesc (s.filter pred)).take
              (parseOrDefault ql 3).natAbs).length,
            total := (s.filter pred).length,
            page := 1,
            pages := jsCeil ((s.filter pred).length : Int)
              (parseOrDefault ql 3) } := by
  simp [listTasks, parseOrDefault]

/-- A negative parsed page combined with a positive parsed limit sends
a negative skip to the store, which rejects the query. -/
theorem listTasks_neg_page (pred : Task → Bool) (m : Int) (hm : m < 0)
    (L : Nat) (hL1 : 1 ≤ L) (s : Store) :
    listTasks pred (some m) (some (L : Int)) s = .storeFailure := by
  have hmb : (m == 0) = false := by
    simp only [beq_eq_false_iff_ne, ne_eq]
    omega
  have hLz : (((L : Nat) : Int) == 0) = false := by
    simp only [beq_eq_false_iff_ne, ne_eq]
    omega
  have hL0 : (0 : Int) < (L : Int) := by exact_mod_cast hL1
  have hneg : (m - 1) * (L : Int) < 0 :=
    mul_neg_of_neg_of_pos (by omega) hL0
  simp [listTasks, parseOrDefault, hmb, hLz, hneg]

/-- A second sample task, also created by user 3, for the listing
witnesses. -/
def sampleTask2 : Task :=
  { id := 2,
    title := some "Write docs",
    description := some "outline",
    dueDate := some 0,
    priority := some "low",
    status := some "pending",
    assignedTo := 4,
    createdBy := 3,
    createdAt := 9 }

/-- C3: over all pages (any positive limit L), the assigned-to-me
listing holds exactly the stored tasks with assignedTo the user and
createdBy a different user (so never a self-created self-assigned
task), the created-by-me listing exactly those with createdBy the user
(self-assigned ones included), and the all-tasks listing exactly those
with createdBy or assignedTo the user. -/
theorem listing_filters_exact (u : Nat) (s : Store) (t : Task) (L : Nat)
    (hL : 1 ≤ L) (ht : t ∈ s) :
    ((∃ k : Nat, ∃ r, getAssignedTasks u (some ((k : Int) + 1))
        (some (L : Int)) s = .ok r ∧ t ∈ r.data) ↔
      (t.assignedTo = u ∧ t.createdBy ≠ u)) ∧
    ((∃ k : Nat, ∃ r, getCreatedTasks u (some ((k : Int) + 1))
        (some (L : Int)) s = .ok r ∧ t ∈ r.data) ↔ t.createdBy = u) ∧
    ((∃ k : Nat, ∃ r, getTasks u (some ((k : Int) + 1))
        (some (L : Int)) s = .ok r ∧ t ∈ r.data) ↔
      (t.createdBy = u ∨ t.assignedTo = u)) := by
  refine ⟨?_, ?_, ?_⟩
  · simp only [getAssignedTasks]
    rw [mem_listing_iff _ L hL s t ht]
    simp [matchesAssigned]
  · simp only [getCreatedTasks]
    rw [mem_listing_iff _ L hL s t ht]
    simp [matchesCreated]
  · simp only [getTasks]
    rw [mem_listing_iff _ L hL s t ht]
    simp [matchesAll]

/-- Witness for C3 on a store holding one task created by user 3 and
assigned to user 2: for user 3 it is created-by-me but not
assigned-to-me; for user 2 the all-tasks listing has it. -/
theorem listing_filters_exact_witness :
    (((∃ k : Nat, ∃ r, getAssignedTasks 3 (some ((k : Int) + 1))
        (some ((1 : Nat) : Int)) [sampleTask] = .ok r ∧
        sampleTask ∈ r.data) ↔
      (sampleTask.assignedTo = 3 ∧ sampleTask.createdBy ≠ 3)) ∧
    ((∃ k : Nat, ∃ r, getCreatedTasks 3 (some ((k : Int) + 1))
        (some ((1 : Nat) : Int)) [sampleTask] = .ok r ∧
        sampleTask ∈ r.data) ↔
      sampleTask.createdBy = 3) ∧
    ((∃ k : Nat, ∃ r, getTasks 3 (some ((k : Int) + 1))
        (some ((1 : Nat) : Int)) [sampleTask] = .ok r ∧
        sampleTask ∈ r.data) ↔
      (sampleTask.createdBy = 3 ∨ sampleTask.assignedTo = 3))) ∧
    ((∃ k : Nat, ∃ r, getTasks 2 (some ((k : Int) + 1))
        (some ((1 : Nat) : Int)) [sampleTask] = .ok r ∧
        sampleTask ∈ r.data) ↔
      (sampleTask.createdBy = 2 ∨ sampleTask.assignedTo = 2)) :=
  ⟨listing_filters_exact 3 [sampleTask] sampleTask 1 (by decide)
      (by decide),
   (listing_filters_exact 2 [sampleTask] sampleTask 1 (by decide)
      (by decide)).2.2⟩

/-- C4: each of the three listing operations sorts the matching tasks
by createdAt descending, paginates with skip (page-1)*limit, and
reports count as the number of records in the page, total as the
number of matching records, page as requested, and pages as the
ceiling of total over the limit; the counts over all pages sum to
total. Stated at page k+1 and positive limit L. -/
theorem listing_pagination_correct (u : Nat) (k L : Nat) (hL : 1 ≤ L)
    (s : Store) :
    (∃ r, getTasks u (some ((k : Int) + 1)) (some (L : Int)) s = .ok r ∧
      List.Pairwise (fun a b => b.createdAt ≤ a.createdAt) r.data ∧
      r.count = r.data.length ∧
      r.total = (s.filter (matchesAll u)).length ∧
      r.page = (k : Int) + 1 ∧
      r.pages =
        ((((s.filter (matchesAll u)).length + L - 1) / L : Nat) : Int) ∧
      (∑ j ∈ Finset.range (((s.filter (matchesAll u)).length + L - 1) / L),
        (getTasks u (some ((j : Int) + 1)) (some (L : Int)) s).countOf) =
        (s.filter (matchesAll u)).length) ∧
    (∃ r, getAssignedTasks u (some ((k : Int) + 1)) (some (L : Int)) s =
        .ok r ∧
      List.Pairwise (fun a b => b.createdAt ≤ a.createdAt) r.data ∧
      r.count = r.data.length ∧
      r.total = (s.filter (matchesAssigned u)).length ∧
      r.page = (k : Int) + 1 ∧
      r.pages =
        ((((s.filter (matchesAssigned u)).length + L - 1) / L : Nat) : Int) ∧
      (∑ j ∈ Finset.range
          (((s.filter (matchesAssigned u)).length + L - 1) / L),
        (getAssignedTasks u (some ((j : Int) + 1))
          (some (L : Int)) s).countOf) =
        (s.filter (matchesAssigned u)).length) ∧
    (∃ r, getCreatedTasks u (some ((k : Int) + 1)) (some (L : Int)) s =
        .ok r ∧
      List.Pairwise (fun a b => b.createdAt ≤ a.createdAt) r.data ∧
      r.count = r.data.length ∧
      r.total = (s.filter (matchesCreated u)).length ∧
      r.page = (k : Int) + 1 ∧
      r.pages =
        ((((s.filter (matchesCreated u)).length + L - 1) / L : Nat) : Int) ∧
      (∑ j ∈ Finset.range
          (((s.filter (matchesCreated u)).length + L - 1) / L),
        (getCreatedTasks u (some ((j : Int) + 1))
          (some (L : Int)) s).countOf) =
        (s.filter (matchesCreated u)).length) :=
  ⟨listTasks_pagination (matchesAll u) k L hL s,
   listTasks_pagination (matchesAssigned u) k L hL s,
   listTasks_pagination (matchesCreated u) k L hL s⟩

/-- Witness for C4: user 3 created both sample tasks; with limit 1 the
created-by-me listing succeeds and reports 2 pages. -/
theorem listing_pagination_correct_witness :
    ∃ r, getCreatedTasks 3 (some (((0 : Nat) : Int) + 1))
      (some ((1 : Nat) : Int)) [sampleTask, sampleTask2] = .ok r ∧
      r.pages = 2 := by
  obtain ⟨r, hr, _, _, _, _, hpages, _⟩ :=
    (listing_pagination_correct 3 0 1 (by decide)
      [sampleTask, sampleTask2]).2.2
  exact ⟨r, hr, by rw [hpages]; decide⟩

/-- C6 counterexample: a parsed page of -5 is out of range (pages are
1-indexed) yet it is not replaced by the default page 1: it reaches the
store verbatim as the negative skip -18, the store rejects the query
and the handler surfaces a generic failure, unlike the defaulted
request, which succeeds. -/
theorem listing_parse_counterexample :
    getTasks 3 (some (-5)) (some 3) [sampleTask] = .storeFailure ∧
    getTasks 3 (some (-5)) (some 3) [sampleTask] ≠
      getTasks 3 none (some 3) [sampleTask] := by
  decide

/-- C6 amended: page and limit come from caller input through the
parse-or-default rule: a missing, unparseable or zero value falls back
to the defaults page 1 and limit 3 (a zero limit behaves exactly like
an absent one), and every other parsed integer is used verbatim — a
successful response echoes the requested nonzero page unchanged, and a
negative page with a positive limit reaches the store as a negative
skip and the request fails instead of being defaulted; no upper bound
is enforced on either value, so a limit at least the number of
matching records returns them all in one page. -/
theorem listing_page_limit_parsing (u : Nat) (s : Store)
    (ql : Option Int) (n : Int) (hn : n ≠ 0) (L : Nat)
    (hL1 : 1 ≤ L) (hL : (s.filter (matchesAll u)).length ≤ L) :
    ((∃ r, getTasks u none ql s = .ok r ∧ r.page = 1) ∧
     (∃ r, getAssignedTasks u none ql s = .ok r ∧ r.page = 1) ∧
     (∃ r, getCreatedTasks u none ql s = .ok r ∧ r.page = 1)) ∧
    ((∃ r, getTasks u (some 0) ql s = .ok r ∧ r.page = 1) ∧
     (∃ r, getAssignedTasks u (some 0) ql s = .ok r ∧ r.page = 1) ∧
     (∃ r, getCreatedTasks u (some 0) ql s = .ok r ∧ r.page = 1)) ∧
    ((∀ qp, getTasks u qp (some 0) s = getTasks u qp none s) ∧
     (∀ qp, getAssignedTasks u qp (some 0) s =
       getAssignedTasks u qp none s) ∧
     (∀ qp, getCreatedTasks u qp (some 0) s =
       getCreatedTasks u qp none s)) ∧
    ((∀ r, getTasks u (some n) ql s = .ok r → r.page = n) ∧
     (∀ r, getAssignedTasks u (some n) ql s = .ok r → r.page = n) ∧
     (∀ r, getCreatedTasks u (some n) ql s = .ok r → r.page = n)) ∧
    ((∀ m : Int, m < 0 →
       getTasks u (some m) (some (L : Int)) s = .storeFailure) ∧
     (∀ m : Int, m < 0 →
       getAssignedTasks u (some m) (some (L : Int)) s = .storeFailure) ∧
     (∀ m : Int, m < 0 →
       getCreatedTasks u (some m) (some (L : Int)) s = .storeFailure)) ∧
    (∃ r, getTasks u (some 1) none s = .ok r ∧
      r.count = min 3 (s.filter (matchesAll u)).length) ∧
    (∃ r, getTasks u (some 1) (some (L : Int)) s = .ok r ∧
      r.count = (s.filter (matchesAll u)).length) := by
  have hpn : parseOrDefault (some n) 1 = n := by
    have hnb : (n == 0) = false := by
      simp only [beq_eq_false_iff_ne, ne_eq]
      exact hn
    simp [parseOrDefault, hnb]
  refine ⟨?_, ?_, ?_, ?_, ?_, ?_, ?_⟩
  · exact ⟨⟨_, listTasks_none_page (matchesAll u) ql s, rfl⟩,
      ⟨_, listTasks_none_page (matchesAssigned u) ql s, rfl⟩,
      ⟨_, listTasks_none_page (matchesCreated u) ql s, rfl⟩⟩
  · exact ⟨⟨_, listTasks_none_page (matchesAll u) ql s, rfl⟩,
      ⟨_, listTasks_none_page (matchesAssigned u) ql s, rfl⟩,
      ⟨_, listTasks_none_page (matchesCreated u) ql s, rfl⟩⟩
  · exact ⟨fun qp => rfl, fun qp => rfl, fun qp => rfl⟩
  · exact ⟨fun r h => (listTasks_page_parsed _ _ _ _ r h).trans hpn,
      fun r h => (listTasks_page_parsed _ _ _ _ r h).trans hpn,
      fun r h => (listTasks_page_parsed _ _ _ _ r h).trans hpn⟩
  · exact ⟨fun m hm => listTasks_neg_page (matchesAll u) m hm L hL1 s,
      fun m hm => listTasks_neg_page (matchesAssigned u) m hm L hL1 s,
      fun m hm => listTasks_neg_page (matchesCreated u) m hm L hL1 s⟩
  · refine ⟨_, listTasks_none_page (matchesAll u) none s, ?_⟩
    show ((sortByCreatedAtDesc (s.filter (matchesAll u))).take
      (parseOrDefault none 3).natAbs).length =
      min 3 (s.filter (matchesAll u)).length
    rw [List.length_take, (sortByCreatedAtDesc_perm _).length_eq]
    rfl
  · refine ⟨_, listTasks_eval (matchesAll u) 0 L hL1 s, ?_⟩
    show (((sortByCreatedAtDesc (s.filter (matchesAll u))).drop
      (0 * L)).take L).length = (s.filter (matchesAll u)).length
    rw [Nat.zero_mul, List.drop_zero, List.length_take,
      (sortByCreatedAtDesc_perm _).length_eq]
    omega

/-- Witness for C6 amended: concrete parses on a one-task store, with
the negative page failing at the store and a limit covering the whole
match set. -/
theorem listing_page_limit_parsing_witness :
    ((∃ r, getTasks 3 none (some 3) [sampleTask] = .ok r ∧ r.page = 1) ∧
     (∃ r, getAssignedTasks 3 none (some 3) [sampleTask] = .ok r ∧
       r.page = 1) ∧
     (∃ r, getCreatedTasks 3 none (some 3) [sampleTask] = .ok r ∧
       r.page = 1)) ∧
    ((∃ r, getTasks 3 (some 0) (some 3) [sampleTask] = .ok r ∧
       r.page = 1) ∧
     (∃ r, getAssignedTasks 3 (some 0) (some 3) [sampleTask] = .ok r ∧
       r.page = 1) ∧
     (∃ r, getCreatedTasks 3 (some 0) (some 3) [sampleTask] = .ok r ∧
       r.page = 1)) ∧
    ((∀ qp, getTasks 3 qp (some 0) [sampleTask] =
       getTasks 3 qp none [sampleTask]) ∧
     (∀ qp, getAssignedTasks 3 qp (some 0) [sampleTask] =
       getAssignedTasks 3 qp none [sampleTask]) ∧
     (∀ qp, getCreatedTasks 3 qp (some 0) [sampleTask] =
       getCreatedTasks 3 qp none [sampleTask])) ∧
    ((∀ r, getTasks 3 (some (-5)) (some 3) [sampleTask] = .ok r →
       r.page = -5) ∧
     (∀ r, getAssignedTasks 3 (some (-5)) (some 3) [sampleTask] = .ok r →
       r.page = -5) ∧
     (∀ r, getCreatedTasks 3 (some (-5)) (some 3) [sampleTask] = .ok r →
       r.page = -5)) ∧
    ((∀ m : Int, m < 0 → getTasks 3 (some m) (some ((5 : Nat) : Int))
       [sampleTask] = .storeFailure) ∧
     (∀ m : Int, m < 0 → getAssignedTasks 3 (some m)
       (some ((5 : Nat) : Int)) [sampleTask] = .storeFailure) ∧
     (∀ m : Int, m < 0 → getCreatedTasks 3 (some m)
       (some ((5 : Nat) : Int)) [sampleTask] = .storeFailure)) ∧
    (∃ r, getTasks 3 (some 1) none [sampleTask] = .ok r ∧
      r.count =
        min 3 (([sampleTask] : Store).filter (matchesAll 3)).length) ∧
    (∃ r, getTasks 3 (some 1) (some ((5 : Nat) : Int)) [sampleTask] =
        .ok r ∧
      r.count = (([sampleTask] : Store).filter (matchesAll 3)).length) :=
  listing_page_limit_parsing 3 [sampleTask] (some 3) (-5) (by decide) 5
    (by decide) (by decide)

end TaskMaster
